import Mathlib

/-!
# Verification of the freshsales SDK core (`freshsalessdk/freshsalessdk.py`)

A shallow embedding of the SDK's shared request / pagination / normalization
base behaviour and its per-resource subclasses, with theorems checking the
natural-language specification against the code.

Modelling conventions:
* JSON values are `JVal`; Python dictionaries are association lists
  (`Dict = List (String × JVal)`) with Python's assignment semantics
  (`dSet` updates an existing key in place, otherwise appends).
* Python exceptions are the `.error` branch of `Except String`; the carried
  string names the Python exception class.
* The HTTP transport is abstracted: a request is described by the `HttpCall`
  it would issue, and for pagination the remote server for a fixed view is a
  function `fetch : Nat → Dict` from page number to the decoded envelope.
* The unbounded `while True` page loop is given explicit fuel; theorems about
  it quantify over sufficient fuel.
-/

/-- A decoded JSON value (`None`, booleans, numbers, strings, arrays, objects).
Numbers are modelled as integers, which covers every value the SDK touches. -/
inductive JVal where
  | null
  | bool (b : Bool)
  | int (n : Int)
  | str (s : String)
  | arr (xs : List JVal)
  | obj (kvs : List (String × JVal))
deriving Repr

mutual

/-- Python `==` on decoded JSON values: structural equality. -/
def JVal.beq : JVal → JVal → Bool
  | .null, .null => true
  | .bool a, .bool b => a == b
  | .int a, .int b => a == b
  | .str a, .str b => a == b
  | .arr xs, .arr ys => JVal.beqArr xs ys
  | .obj xs, .obj ys => JVal.beqObj xs ys
  | _, _ => false

/-- Elementwise Python `==` on JSON arrays. -/
def JVal.beqArr : List JVal → List JVal → Bool
  | [], [] => true
  | x :: xs, y :: ys => JVal.beq x y && JVal.beqArr xs ys
  | _, _ => false

/-- Pairwise Python `==` on JSON object entries. -/
def JVal.beqObj : List (String × JVal) → List (String × JVal) → Bool
  | [], [] => true
  | (k, v) :: xs, (l, w) :: ys => k == l && JVal.beq v w && JVal.beqObj xs ys
  | _, _ => false

end

/-- Python `x is None` on a decoded JSON value. -/
def JVal.isNone : JVal → Bool
  | .null => true
  | _ => false

/-- A Python dictionary with string keys, as the decoded JSON layer sees it. -/
abbrev Dict := List (String × JVal)

/-- `d[k]` lookup returning `none` when the key is absent (dict membership). -/
def dGet (d : Dict) (k : String) : Option JVal :=
  match d.find? (fun p => p.1 == k) with
  | some p => some p.2
  | none => none

/-- `k in d` (Python dict membership test). -/
def dHas (d : Dict) (k : String) : Bool :=
  (dGet d k).isSome

/-- `d[k]` where the caller has already checked membership; defaults to `null`. -/
def dGetD (d : Dict) (k : String) : JVal :=
  (dGet d k).getD .null

/-- `d[k] = v`: Python dict assignment — replaces the value of an existing key
in place, otherwise appends the new binding at the end. -/
def dSet (d : Dict) (k : String) (v : JVal) : Dict :=
  if d.any (fun p => p.1 == k) then
    d.map (fun p => if p.1 == k then (k, v) else p)
  else
    d ++ [(k, v)]

/-- Python truthiness of a decoded JSON value (`if not x`). -/
def jFalsy : JVal → Bool
  | .null => true
  | .bool b => !b
  | .int n => n == 0
  | .str s => s.isEmpty
  | .arr xs => xs.isEmpty
  | .obj kvs => kvs.isEmpty

/-!
## Lookup helpers (`APIBase._find_obj_by_id`, subscripting, iteration)

`jIndex v k` is Python `v[k]`: a `KeyError` when the key is absent and a
`TypeError` when `v` is not a dictionary (in particular when `v` is `None`).
-/

/-- Python subscripting `v[k]` on a decoded JSON value. -/
def jIndex : JVal → String → Except String JVal
  | .obj kvs, k =>
      match dGet kvs k with
      | some v => .ok v
      | none => .error "KeyError"
  | _, _ => .error "TypeError"

/-- Python `v[k] = w` on a decoded JSON value; leaves non-objects unchanged
(callers only use it after a successful `jIndex` on the same value). -/
def jSetKey : JVal → String → JVal → JVal
  | .obj kvs, k, v => .obj (dSet kvs k v)
  | o, _, _ => o

/-- The scan inside `APIBase._find_obj_by_id`: walks the list, comparing each
element's `o['id']` with `id` via Python `==`; `None` (here `JVal.null`) when
no element matches; raises if an element is not a dict or lacks `'id'`. -/
def findInList : List JVal → JVal → Except String JVal
  | [], _ => .ok .null
  | o :: rest, id =>
      match jIndex o "id" with
      | .error e => .error e
      | .ok oid => if JVal.beq oid id then .ok o else findInList rest id

/-- `APIBase._find_obj_by_id(objs, id)`: `objs` is whatever the container held
under the collection key; `for o in objs` requires a JSON array. -/
def findObjById (objs : JVal) (id : JVal) : Except String JVal :=
  match objs with
  | .arr xs => findInList xs id
  | _ => .error "TypeError"

/-- The collection-extraction prologue shared by the `_normalize` overrides:
`coll = []; if key in container: coll = container[key]`. -/
def getColl (container : Dict) (k : String) : JVal :=
  match dGet container k with
  | some v => v
  | none => .arr []

/-- Python `for x in v` collecting the elements; `TypeError` on non-arrays. -/
def pyIterList : JVal → Except String (List JVal)
  | .arr xs => .ok xs
  | _ => .error "TypeError"

/-!
## Per-resource normalization (`Contacts._normalize`, `Accounts._normalize`,
`Deals._normalize`, `Leads._normalize`, and the no-op overrides)

The Python methods mutate `obj` in place and return `None`; here each returns
the updated record (the generator and `_get_by_id` use the mutated record).
-/

/-- One `if id_key in obj: obj[target] = _find_obj_by_id(coll, obj[id_key])`
block, as used for owners, statuses, stages and industry types. -/
def resolveField (obj : Dict) (idKey : String) (coll : JVal) (tgtKey : String) :
    Except String Dict :=
  if dHas obj idKey then
    match findObjById coll (dGetD obj idKey) with
    | .error e => .error e
    | .ok o => .ok (dSet obj tgtKey o)
  else .ok obj

/-- The appointment loop of `Contacts._normalize`: for each id, look the
appointment up, then subscript it with `'outcome_id'` — which raises
`TypeError` when the lookup returned `None` — resolve the outcome and attach
it under `'outcome'`. -/
def resolveAppointments (appointments outcomes : JVal) :
    List JVal → Except String (List JVal)
  | [] => .ok []
  | aid :: rest =>
      match findObjById appointments aid with
      | .error e => .error e
      | .ok ap =>
        match jIndex ap "outcome_id" with
        | .error e => .error e
        | .ok oid =>
          match findObjById outcomes oid with
          | .error e => .error e
          | .ok outcome =>
            match resolveAppointments appointments outcomes rest with
            | .error e => .error e
            | .ok res => .ok (jSetKey ap "outcome" outcome :: res)

namespace Contacts

/-- `Contacts._normalize(obj, container)` — the Python locals `users`,
`contact_statuses`, `appointments`, `outcomes` (each `[]` unless present in
the container) are written `getColl container …` at their use sites. -/
def normalize (obj container : Dict) : Except String Dict :=
  match resolveField obj "owner_id" (getColl container "users") "owner" with
  | .error e => .error e
  | .ok obj1 =>
    match resolveField obj1 "contact_status_id" (getColl container "contact_status")
        "contact_status" with
    | .error e => .error e
    | .ok obj2 =>
      if dHas obj2 "appointment_ids" then
        match pyIterList (dGetD obj2 "appointment_ids") with
        | .error e => .error e
        | .ok aids =>
          match resolveAppointments (getColl container "appointments")
              (getColl container "outcomes") aids with
          | .error e => .error e
          | .ok res => .ok (dSet obj2 "appointments" (.arr res))
      else .ok obj2

end Contacts

namespace Accounts

/-- `Accounts._normalize(obj, container)`. -/
def normalize (obj container : Dict) : Except String Dict :=
  match resolveField obj "owner_id" (getColl container "users") "owner" with
  | .error e => .error e
  | .ok obj1 =>
    resolveField obj1 "industry_type_id" (getColl container "industry_types")
      "industry_type"

end Accounts

namespace Deals

/-- `Deals._normalize(obj, container)`. -/
def normalize (obj container : Dict) : Except String Dict :=
  match resolveField obj "owner_id" (getColl container "users") "owner" with
  | .error e => .error e
  | .ok obj1 =>
    match resolveField obj1 "sales_account_id" (getColl container "sales_accounts")
        "sales_account" with
    | .error e => .error e
    | .ok obj2 =>
      resolveField obj2 "deal_stage_id" (getColl container "deal_stages")
        "deal_stage"

end Deals

namespace Leads

/-- `Leads._normalize(obj, container)`.

The source initializes `lead_stage = []` (a dead store) but the variable it
later reads, `lead_stages`, is only assigned inside
`if 'lead_stages' in container:` — so when the record has a `lead_stage_id`
and the container has no `lead_stages`, the read raises `NameError`.  The
conditionally-bound local is modelled by an `Option`. -/
def normalize (obj container : Dict) : Except String Dict :=
  match resolveField obj "owner_id" (getColl container "users") "owner" with
  | .error e => .error e
  | .ok obj1 =>
    if dHas obj1 "lead_stage_id" then
      if dHas container "lead_stages" then
        match findObjById (dGetD container "lead_stages")
            (dGetD obj1 "lead_stage_id") with
        | .error e => .error e
        | .ok st => .ok (dSet obj1 "lead_stage" st)
      else .error "NameError"
    else .ok obj1

end Leads

/-- The `_normalize` override of `SalesActivities`, `Tasks` and `Notes`:
`pass` — the record is yielded unchanged. -/
def noopNormalize (obj : Dict) (_container : Dict) : Except String Dict :=
  .ok obj

/-!
## The resource client (`APIBase.__init__`, `_request_generic`) and the
per-resource constructors
-/

/-- The state a resource client holds after `APIBase.__init__`. -/
structure Client where
  resource_type : String
  resource_type_singular : String
  domain : String
  api_key : String
  default_params : Dict
deriving Repr

/-- `APIBase.__init__`: the singular name defaults to the plural with its
final character stripped; a missing or falsy default-parameter dict becomes
`{}`. -/
def APIBase.init (resource_type domain api_key : String)
    (resource_type_singular : Option String) (default_params : Option Dict) :
    Client :=
  { resource_type := resource_type
    resource_type_singular :=
      match resource_type_singular with
      | some s => s
      | none => resource_type.dropRight 1
    domain := domain
    api_key := api_key
    default_params :=
      match default_params with
      | none => []
      | some d => if d.isEmpty then [] else d }

/-- The description of the one HTTP request `_request_generic` issues:
HTTP method, the `path` argument, the full URL built from it, the
authorization header, the merged query parameters and the JSON body. -/
structure HttpCall where
  methodName : String
  path : String
  url : String
  authHeader : String
  params : Dict
  body : JVal
deriving Repr

/-- `path.startswith('/')`, the asserted precondition of `_request_generic`. -/
def startsWithSlash (p : String) : Bool :=
  match p.data with
  | '/' :: _ => true
  | _ => false

/-- The per-value conversion inside the parameter loop: booleans become the
lowercase strings `"true"`/`"false"` (`str(p).lower()`); everything else
passes through unchanged. -/
def paramVal : JVal → JVal
  | .bool b => .str (if b then "true" else "false")
  | v => v

/-- The parameter loop of `_request_generic`: starting from a deep copy of the
client's default parameters, each per-call entry whose value is not `None` is
written over the copy (booleans stringified). `None`-valued entries are
ignored, so the default for that key, if any, survives. -/
def mergeParams (defaults : Dict) (params : Dict) : Dict :=
  params.foldl
    (fun acc kv => if kv.2.isNone then acc else dSet acc kv.1 (paramVal kv.2))
    defaults

/-- `APIBase._request_generic(method, path, params, data)`: asserts the path
shape, replaces a falsy body by `{}`, merges the query parameters over the
defaults and issues one HTTP request, described by the returned `HttpCall`.
Absent `params`/`data` arguments are passed as `[]` / `JVal.null` here; the
`if not …` guards give them the same meaning as Python's `None`. -/
def requestGeneric (c : Client) (methodName path : String) (params : Dict)
    (data : JVal) : Except String HttpCall :=
  if !startsWithSlash path then .error "AssertionError"
  else
    let data := if jFalsy data then JVal.obj [] else data
    .ok { methodName := methodName,
          path := path,
          url := "https://" ++ c.domain ++ ".freshsales.io/api" ++ path,
          authHeader := "Token token=" ++ c.api_key,
          params := mergeParams c.default_params params,
          body := data }

/-- `APIBase.get_views` — GET `{resource}/filters` (the request it issues). -/
def getViews (c : Client) : Except String HttpCall :=
  requestGeneric c "get" ("/" ++ c.resource_type ++ "/filters") [] .null

/-- `APIBase._get_by_id` — GET `{resource}/{id}` (the request it issues). -/
def getById (c : Client) (id : String) : Except String HttpCall :=
  requestGeneric c "get" ("/" ++ c.resource_type ++ "/" ++ id) [] .null

/-- `APIBase.create(data)`: POST `{resource}` with body
`{self.resource_type_singular: data}`. -/
def create (c : Client) (data : JVal) : Except String HttpCall :=
  requestGeneric c "post" ("/" ++ c.resource_type) []
    (.obj [(c.resource_type_singular, data)])

/-- `APIBase.update(id, data)`: PUT `{resource}/{id}` with body
`{self.resource_type_singular: data}`. -/
def update (c : Client) (id : String) (data : JVal) : Except String HttpCall :=
  requestGeneric c "put" ("/" ++ c.resource_type ++ "/" ++ id) []
    (.obj [(c.resource_type_singular, data)])

/-- `APIBase.delete(id)`: DELETE `{resource}/{id}`. -/
def delete (c : Client) (id : String) : Except String HttpCall :=
  requestGeneric c "delete" ("/" ++ c.resource_type ++ "/" ++ id) [] .null

/-- `APIBase.bulk_delete(ids)`: POST `{resource}/bulk_destroy` with body
`{"selected_ids": ids}`. -/
def bulkDelete (c : Client) (ids : List JVal) : Except String HttpCall :=
  requestGeneric c "post" ("/" ++ c.resource_type ++ "/bulk_destroy") []
    (.obj [("selected_ids", .arr ids)])

/-- What a `forget` call produces: either the one HTTP request of the base
`APIBase.forget`, a Python error, or — for the overrides in `SalesActivities`,
`Tasks` and `Notes`, which execute `return NotImplementedError` — the
`NotImplementedError` class handed back as a value, with no request made. -/
inductive ForgetOutcome where
  | httpCall (call : HttpCall)
  | pyError (e : String)
  | notImplementedErrorValue
deriving Repr

/-- The HTTP requests a `ForgetOutcome` involved issuing. -/
def ForgetOutcome.httpCalls : ForgetOutcome → List HttpCall
  | .httpCall call => [call]
  | .pyError _ => []
  | .notImplementedErrorValue => []

/-- `APIBase.forget(id)`: DELETE `{resource}/{id}/forget`. -/
def forget (c : Client) (id : String) : ForgetOutcome :=
  match requestGeneric c "delete"
      ("/" ++ c.resource_type ++ "/" ++ id ++ "/forget") [] .null with
  | .ok call => .httpCall call
  | .error e => .pyError e

namespace Contacts

/-- `Contacts.__init__`. -/
def client (domain api_key : String) : Client :=
  APIBase.init "contacts" domain api_key none
    (some [("include", .str "sales_accounts,appointments,owner,contact_status"),
           ("sort", .str "updated_at"), ("sort_type", .str "desc")])

end Contacts

namespace Accounts

/-- `Accounts.__init__` — note the endpoint segment is `sales_accounts`. -/
def client (domain api_key : String) : Client :=
  APIBase.init "sales_accounts" domain api_key none
    (some [("include", .str "appointments,owner,industry_type"),
           ("sort", .str "updated_at"), ("sort_type", .str "desc")])

/-- The `Accounts.bulk_delete` override: POST to the literal path
`/accounts/bulk_destroy`, with the cascade flag in the body. -/
def bulkDelete (c : Client) (ids : List JVal)
    (delete_associated_contacts_deals : Bool) : Except String HttpCall :=
  requestGeneric c "post" "/accounts/bulk_destroy" []
    (.obj [("selected_ids", .arr ids),
           ("delete_associated_contacts_deals",
            .bool delete_associated_contacts_deals)])

end Accounts

namespace Deals

/-- `Deals.__init__`. -/
def client (domain api_key : String) : Client :=
  APIBase.init "deals" domain api_key none
    (some [("include", .str "sales_account,appointments,owner,deal_stage"),
           ("sort", .str "updated_at"), ("sort_type", .str "desc")])

end Deals

namespace Leads

/-- `Leads.__init__`. -/
def client (domain api_key : String) : Client :=
  APIBase.init "leads" domain api_key none
    (some [("include", .str "sales_account,appointments,owner,lead_stage"),
           ("sort", .str "updated_at"), ("sort_type", .str "desc")])

end Leads

namespace SalesActivities

/-- `SalesActivities.__init__` — irregular plural, singular given explicitly. -/
def client (domain api_key : String) : Client :=
  APIBase.init "sales_activities" domain api_key (some "sales_activity") (some [])

/-- `SalesActivities.forget`: `return NotImplementedError`. -/
def forget (_c : Client) (_id : String) : ForgetOutcome :=
  .notImplementedErrorValue

end SalesActivities

namespace Tasks

/-- `Tasks.__init__`. -/
def client (domain api_key : String) : Client :=
  APIBase.init "tasks" domain api_key none (some [])

/-- `Tasks.forget`: `return NotImplementedError`. -/
def forget (_c : Client) (_id : String) : ForgetOutcome :=
  .notImplementedErrorValue

end Tasks

namespace Notes

/-- `Notes.__init__`. -/
def client (domain api_key : String) : Client :=
  APIBase.init "notes" domain api_key none (some [])

/-- `Notes.forget`: `return NotImplementedError`. -/
def forget (_c : Client) (_id : String) : ForgetOutcome :=
  .notImplementedErrorValue

end Notes

/-!
## Pagination (`APIBase._get_all_generator`, `get_all`)

The remote server for one fixed view is abstracted as `fetch : Nat → Dict`,
the decoded envelope it returns for `GET {resource}/view/{view_id}` with
query parameters `page=n, per_page=100` (built by `pageParams`).  The
`while True:` loop carries explicit fuel; `GenOut.fuelOut` marks exhaustion
and never arises in the theorems below.
-/

/-- The per-page query parameters, `{'page': page, 'per_page': 100}`. -/
def pageParams (page : Nat) : Dict :=
  [("page", .int page), ("per_page", .int 100)]

/-- The path of a page fetch, `/{resource}/view/{view_id}`. -/
def viewPath (c : Client) (viewId : String) : String :=
  "/" ++ c.resource_type ++ "/view/" ++ viewId

/-- `res['meta']['total_pages']` of an envelope; the later comparison
`page > total_pages` needs an integer. -/
def envTotalPages (res : Dict) : Except String Int :=
  match dGet res "meta" with
  | none => .error "KeyError"
  | some m =>
    match jIndex m "total_pages" with
    | .error e => .error e
    | .ok (.int n) => .ok n
    | .ok _ => .error "TypeError"

/-- Interprets the page's array elements as records (keyed mappings). -/
def asDictList : List JVal → Except String (List Dict)
  | [] => .ok []
  | .obj kvs :: rest =>
      match asDictList rest with
      | .error e => .error e
      | .ok ds => .ok (kvs :: ds)
  | _ :: _ => .error "TypeError"

/-- `objs = res[self.resource_type]` of an envelope, as a list of records. -/
def envRecords (res : Dict) (rt : String) : Except String (List Dict) :=
  match dGet res rt with
  | none => .error "KeyError"
  | some (.arr xs) => asDictList xs
  | some _ => .error "TypeError"

/-- The stop test `if limit and num > limit:` — Python truthiness of `limit`
(`None` and `0` are falsy) conjoined with the count comparison. -/
def pyLimitHit : Option Int → Int → Bool
  | none, _ => false
  | some l, num => l != 0 && decide (num > l)

/-- The inner `for obj in objs:` loop of one page: normalize each record,
count it, stop (without yielding it) when the limit is hit, otherwise yield
the normalized record.  Returns the yields, the updated count, and whether
the generator returned mid-page. -/
def processObjs (normalize : Dict → Dict → Except String Dict) (container : Dict)
    (lim : Option Int) : List Dict → Int → Except String (List Dict × Int × Bool)
  | [], num => .ok ([], num, false)
  | obj :: rest, num =>
      match normalize obj container with
      | .error e => .error e
      | .ok obj' =>
        if pyLimitHit lim (num + 1) then .ok ([], num + 1, true)
        else
          match processObjs normalize container lim rest (num + 1) with
          | .error e => .error e
          | .ok (ys, numF, stopped) => .ok (obj' :: ys, numF, stopped)

/-- The outcome of draining the generator: the yielded records together with
the page numbers fetched, in order; or the Python exception that escaped; or
fuel exhaustion of the model (never the Python code's own behaviour). -/
inductive GenOut where
  | ok (records : List Dict) (fetchedPages : List Nat)
  | err (e : String)
  | fuelOut
deriving Repr

/-- The `while True:` loop of `_get_all_generator`, starting at `page` with
running count `num`: fetch the page, read `meta.total_pages`, yield the
page's normalized records subject to `limit`, then advance and stop once the
next page number exceeds the just-read `total_pages`. -/
def genLoop (normalize : Dict → Dict → Except String Dict) (rt : String)
    (fetch : Nat → Dict) (lim : Option Int) :
    Nat → Nat → Int → GenOut
  | 0, _, _ => .fuelOut
  | fuel + 1, page, num =>
    match envTotalPages (fetch page) with
    | .error e => .err e
    | .ok tp =>
      match envRecords (fetch page) rt with
      | .error e => .err e
      | .ok objs =>
        match processObjs normalize (fetch page) lim objs num with
        | .error e => .err e
        | .ok (ys, num', stopped) =>
          if stopped then .ok ys [page]
          else if ((page : Int) + 1) > tp then .ok ys [page]
          else
            match genLoop normalize rt fetch lim fuel (page + 1) num' with
            | .fuelOut => .fuelOut
            | .err e => .err e
            | .ok ys' pages => .ok (ys ++ ys') (page :: pages)

/-- `get_all_generator(view_id, limit)` drained to a list — equivalently
`get_all` — for the view served by `fetch`, with the given fuel. -/
def getAll (normalize : Dict → Dict → Except String Dict) (rt : String)
    (fetch : Nat → Dict) (lim : Option Int) (fuel : Nat) : GenOut :=
  genLoop normalize rt fetch lim fuel 1 0

/-- A demonstration envelope for page `p` of a `tasks` view with `tp` total
pages and two records per page. -/
def demoEnv (tp : Int) (p : Nat) : Dict :=
  [("meta", .obj [("total_pages", .int tp)]),
   ("tasks", .arr [.obj [("id", .int (2 * p - 1))], .obj [("id", .int (2 * p))]])]

/-- A view server whose every page reports `total_pages = 1` and holds one
record. -/
def onePageFetch : Nat → Dict := fun _ =>
  [("meta", .obj [("total_pages", .int 1)]),
   ("tasks", .arr [.obj [("id", .int 1)]])]

/-- A view server whose every page reports `total_pages = 3` and holds three
records. -/
def threePageFetch : Nat → Dict := fun p =>
  [("meta", .obj [("total_pages", .int 3)]),
   ("tasks", .arr [.obj [("id", .int (3 * p - 2))], .obj [("id", .int (3 * p - 1))],
                   .obj [("id", .int (3 * p))]])]

/-- The records `threePageFetch` serves on page `p`. -/
def threePageRecords (p : Nat) : List Dict :=
  [[("id", .int (3 * p - 2))], [("id", .int (3 * p - 1))], [("id", .int (3 * p))]]

/-!
## The public operations as state transformers (for the immutability claim)

Each public method of the source either only reads `self` (building a request
from `self.resource_type`, `self.domain`, `self.api_key`,
`self.default_params`) or writes into the deep copy `api_params`; none
assigns a `self` attribute after `__init__`.  `runOp` is the translation of
one public call as a transformer of the client state paired with the call's
observable outcome.
-/

/-- One public operation of a resource client, with its arguments. -/
inductive Op where
  | viewsOp
  | getAllOp (viewId : String) (lim : Option Int) (fuel : Nat)
  | getOp (id : String)
  | createOp (data : JVal)
  | updateOp (id : String) (data : JVal)
  | deleteOp (id : String)
  | forgetOp (id : String)
  | bulkDeleteOp (ids : List JVal)

/-- The observable outcome of one public operation. -/
inductive OpOut where
  | req (r : Except String HttpCall)
  | gen (g : GenOut)
  | forgetRes (f : ForgetOutcome)

/-- Runs one public operation against the client state `c`, returning the
state the client holds afterwards together with the operation's outcome. -/
def runOp (normalize : Dict → Dict → Except String Dict) (server : Nat → Dict)
    (c : Client) : Op → Client × OpOut
  | .viewsOp => (c, .req (getViews c))
  | .getAllOp _viewId lim fuel =>
      (c, .gen (getAll normalize c.resource_type server lim fuel))
  | .getOp id => (c, .req (getById c id))
  | .createOp data => (c, .req (create c data))
  | .updateOp id data => (c, .req (update c id data))
  | .deleteOp id => (c, .req (delete c id))
  | .forgetOp id => (c, .forgetRes (forget c id))
  | .bulkDeleteOp ids => (c, .req (bulkDelete c ids))

/-- The client state left after a sequence of public operations. -/
def runOps (normalize : Dict → Dict → Except String Dict) (server : Nat → Dict)
    (c : Client) (ops : List Op) : Client :=
  ops.foldl (fun st op => (runOp normalize server st op).1) c

/-!
## Concrete values used by the witnesses
-/

/-- The user record `{"id": 7, "name": "A"}` of the specification's
owner-resolution example. -/
def userA : JVal := .obj [("id", .int 7), ("name", .str "A")]

/-- Demonstration default parameters for the merge witness. -/
def demoDefaults : Dict := [("sort", .str "updated_at"), ("include", .str "a")]

/-- Demonstration per-call parameters: a `None`, a boolean and an integer. -/
def demoParams : Dict :=
  [("sort", .null), ("archived", .bool true), ("page", .int 2)]

/-- The request a `tasks` client issues for `GET /tasks` with `demoParams`. -/
def demoCall : HttpCall :=
  { methodName := "get",
    path := "/tasks",
    url := "https://d.freshsales.io/api/tasks",
    authHeader := "Token token=k",
    params := [("archived", .str "true"), ("page", .int 2)],
    body := .obj [] }

/-- A contact record carrying `owner_id = 7` and an unrelated key. -/
def contactA : Dict := [("owner_id", .int 7), ("x", .int 5)]

/-- An envelope whose `users` collection is `[{"id": 7, "name": "A"}]`. -/
def containerA : Dict := [("users", .arr [userA])]

/-- `contactA` after `Contacts._normalize` against `containerA`. -/
def contactA' : Dict := [("owner_id", .int 7), ("x", .int 5), ("owner", userA)]

/-- A contact record whose `owner_id = 9` matches no user of `containerA`. -/
def contactB : Dict := [("owner_id", .int 9)]

/-- `contactB` after `Contacts._normalize` against `containerA`. -/
def contactB' : Dict := [("owner_id", .int 9), ("owner", .null)]

/-- The request `Deals.bulk_delete([1])` issues. -/
def demoBulkCall : HttpCall :=
  { methodName := "post",
    path := "/deals/bulk_destroy",
    url := "https://d.freshsales.io/api/deals/bulk_destroy",
    authHeader := "Token token=k",
    params := [("include", .str "sales_account,appointments,owner,deal_stage"),
               ("sort", .str "updated_at"), ("sort_type", .str "desc")],
    body := .obj [("selected_ids", .arr [.int 1])] }

example :
    getAll noopNormalize "tasks" (demoEnv 2) none 5 =
      .ok [[("id", .int 1)], [("id", .int 2)], [("id", .int 3)], [("id", .int 4)]]
        [1, 2] := rfl

example :
    getAll noopNormalize "tasks" (demoEnv 2) (some 3) 5 =
      .ok [[("id", .int 1)], [("id", .int 2)], [("id", .int 3)]] [1, 2] := rfl

/-!
## Lawfulness of the structural equality `JVal.beq`
-/

mutual

theorem JVal.beq_iff : ∀ (a b : JVal), JVal.beq a b = true ↔ a = b
  | .null, .null => by simp [JVal.beq]
  | .bool a, .bool b => by simp [JVal.beq]
  | .int a, .int b => by simp [JVal.beq]
  | .str a, .str b => by simp [JVal.beq]
  | .arr xs, .arr ys => by
      simp only [JVal.beq, JVal.arr.injEq]
      exact JVal.beqArr_iff xs ys
  | .obj xs, .obj ys => by
      simp only [JVal.beq, JVal.obj.injEq]
      exact JVal.beqObj_iff xs ys
  | .null, .bool _ | .null, .int _ | .null, .str _ | .null, .arr _ | .null, .obj _
  | .bool _, .null | .bool _, .int _ | .bool _, .str _ | .bool _, .arr _ | .bool _, .obj _
  | .int _, .null | .int _, .bool _ | .int _, .str _ | .int _, .arr _ | .int _, .obj _
  | .str _, .null | .str _, .bool _ | .str _, .int _ | .str _, .arr _ | .str _, .obj _
  | .arr _, .null | .arr _, .bool _ | .arr _, .int _ | .arr _, .str _ | .arr _, .obj _
  | .obj _, .null | .obj _, .bool _ | .obj _, .int _ | .obj _, .str _ | .obj _, .arr _ => by
      simp [JVal.beq]

theorem JVal.beqArr_iff : ∀ (xs ys : List JVal), JVal.beqArr xs ys = true ↔ xs = ys
  | [], [] => by simp [JVal.beqArr]
  | x :: xs, y :: ys => by
      simp only [JVal.beqArr, Bool.and_eq_true, List.cons.injEq]
      exact and_congr (JVal.beq_iff x y) (JVal.beqArr_iff xs ys)
  | [], _ :: _ => by simp [JVal.beqArr]
  | _ :: _, [] => by simp [JVal.beqArr]

theorem JVal.beqObj_iff : ∀ (xs ys : List (String × JVal)),
    JVal.beqObj xs ys = true ↔ xs = ys
  | [], [] => by simp [JVal.beqObj]
  | (k, v) :: xs, (l, w) :: ys => by
      simp only [JVal.beqObj, Bool.and_eq_true, List.cons.injEq, Prod.mk.injEq,
        beq_iff_eq, and_assoc]
      exact and_congr_right (fun _ =>
        and_congr (JVal.beq_iff v w) (JVal.beqObj_iff xs ys))
  | [], _ :: _ => by simp [JVal.beqObj]
  | _ :: _, [] => by simp [JVal.beqObj]

end

theorem JVal.beq_false {a b : JVal} (h : a ≠ b) : JVal.beq a b = false := by
  cases hb : JVal.beq a b
  · rfl
  · exact absurd ((JVal.beq_iff a b).mp hb) h

/-!
## Dictionary lemmas
-/

theorem strBeq_false {a b : String} (h : a ≠ b) : (a == b) = false := by
  cases hb : a == b
  · rfl
  · exact absurd (eq_of_beq hb) h

theorem dGet_cons (p : String × JVal) (rest : Dict) (k : String) :
    dGet (p :: rest) k = if p.1 == k then some p.2 else dGet rest k := by
  cases hb : p.1 == k <;> simp [dGet, List.find?, hb]

theorem dGet_dSet_self (d : Dict) (k : String) (v : JVal) :
    dGet (dSet d k v) k = some v := by
  unfold dSet
  split
  · rename_i hany
    induction d with
    | nil => simp at hany
    | cons p rest ih =>
      simp only [List.any_cons, Bool.or_eq_true] at hany
      rw [List.map_cons]
      cases hp : p.1 == k
      · rw [dGet_cons]
        simp only [hp, Bool.false_eq_true, if_false]
        rcases hany with hany | hany
        · rw [hp] at hany; exact absurd hany (by simp)
        · exact ih hany
      · rw [dGet_cons]
        simp [hp]
  · induction d with
    | nil => simp [dGet_cons, dGet]
    | cons p rest ih =>
      rename_i hany
      simp only [List.any_cons, Bool.or_eq_true, not_or] at hany
      rw [List.cons_append, dGet_cons]
      simp only [hany.1, Bool.false_eq_true, if_false]
      exact ih (by simpa using hany.2)

theorem dGet_map_set_ne (d : Dict) (k k' : String) (v : JVal) (h : k' ≠ k) :
    dGet (d.map (fun p => if p.1 == k then (k, v) else p)) k' = dGet d k' := by
  have hk : (k == k') = false := strBeq_false (fun hh => h hh.symm)
  induction d with
  | nil => simp
  | cons p rest ih =>
    rw [List.map_cons, dGet_cons, dGet_cons]
    cases hp : p.1 == k
    · simp only [hp, Bool.false_eq_true, if_false]
      rw [ih]
    · have hpk : p.1 = k := eq_of_beq hp
      have hp' : (p.1 == k') = false := by rw [hpk]; exact hk
      simp only [hp, if_true, hp', hk, Bool.false_eq_true, if_false]
      exact ih

theorem dGet_append_single_ne (d : Dict) (k k' : String) (v : JVal)
    (h : k' ≠ k) : dGet (d ++ [(k, v)]) k' = dGet d k' := by
  have hk : (k == k') = false := strBeq_false (fun hh => h hh.symm)
  induction d with
  | nil => simp [dGet_cons, dGet, hk]
  | cons p rest ih =>
    rw [List.cons_append, dGet_cons, dGet_cons]
    cases hq : p.1 == k'
    · simp only [hq, Bool.false_eq_true, if_false]
      exact ih
    · simp [hq]

theorem dGet_dSet_ne (d : Dict) (k k' : String) (v : JVal) (h : k' ≠ k) :
    dGet (dSet d k v) k' = dGet d k' := by
  unfold dSet
  split
  · exact dGet_map_set_ne d k k' v h
  · exact dGet_append_single_ne d k k' v h

theorem dGet_not_mem (d : Dict) (k : String) (h : k ∉ d.map Prod.fst) :
    dGet d k = none := by
  induction d with
  | nil => rfl
  | cons p rest ih =>
    simp only [List.map_cons, List.mem_cons, not_or] at h
    rw [dGet_cons]
    have hp : (p.1 == k) = false := strBeq_false (fun hh => h.1 hh.symm)
    simp only [hp, Bool.false_eq_true, if_false]
    exact ih h.2

theorem mergeParams_not_mem (defaults params : Dict) (k : String)
    (h : k ∉ params.map Prod.fst) :
    dGet (mergeParams defaults params) k = dGet defaults k := by
  induction params generalizing defaults with
  | nil => rfl
  | cons p rest ih =>
    simp only [List.map_cons, List.mem_cons, not_or] at h
    show dGet (mergeParams (if p.2.isNone then defaults
      else dSet defaults p.1 (paramVal p.2)) rest) k = dGet defaults k
    rw [ih _ h.2]
    cases p.2.isNone
    · simp only [Bool.false_eq_true, if_false]
      exact dGet_dSet_ne _ _ _ _ (fun hh => h.1 hh)
    · rfl

theorem mergeParams_spec (defaults params : Dict)
    (hnd : (params.map Prod.fst).Nodup) (k : String) :
    dGet (mergeParams defaults params) k =
      match dGet params k with
      | some v => if v.isNone then dGet defaults k else some (paramVal v)
      | none => dGet defaults k := by
  induction params generalizing defaults with
  | nil => rfl
  | cons p rest ih =>
    simp only [List.map_cons, List.nodup_cons] at hnd
    show dGet (mergeParams (if p.2.isNone then defaults
      else dSet defaults p.1 (paramVal p.2)) rest) k = _
    rw [dGet_cons]
    by_cases hk : p.1 = k
    · subst hk
      rw [mergeParams_not_mem _ _ _ hnd.1]
      simp only [beq_self_eq_true, if_true]
      cases hnull : p.2.isNone
      · simp [hnull, dGet_dSet_self]
      · simp [hnull]
    · have hk' : (p.1 == k) = false := strBeq_false hk
      rw [ih _ hnd.2]
      have hd : dGet (if p.2.isNone then defaults
          else dSet defaults p.1 (paramVal p.2)) k = dGet defaults k := by
        cases p.2.isNone
        · simp only [Bool.false_eq_true, if_false]
          exact dGet_dSet_ne _ _ _ _ (fun hh => hk hh.symm)
        · rfl
      simp only [hk', Bool.false_eq_true, if_false]
      cases hrest : dGet rest k with
      | none => simp [hd]
      | some v =>
        cases hv : v.isNone
        · simp [hv]
        · simp [hv, hd]

/-!
## Request-layer lemmas
-/

theorem sws1 (s : String) : startsWithSlash ("/" ++ s) = true := by
  cases s
  rfl

theorem sws2 (s t : String) : startsWithSlash ("/" ++ s ++ t) = true := by
  cases s
  cases t
  rfl

theorem sws3 (s t u : String) : startsWithSlash ("/" ++ s ++ t ++ u) = true := by
  cases s
  cases t
  cases u
  rfl

theorem sws4 (s t u w : String) :
    startsWithSlash ("/" ++ s ++ t ++ u ++ w) = true := by
  cases s
  cases t
  cases u
  cases w
  rfl

theorem requestGeneric_eq (c : Client) (m path : String) (params : Dict)
    (data : JVal) (h : startsWithSlash path = true) :
    requestGeneric c m path params data =
      .ok { methodName := m,
            path := path,
            url := "https://" ++ c.domain ++ ".freshsales.io/api" ++ path,
            authHeader := "Token token=" ++ c.api_key,
            params := mergeParams c.default_params params,
            body := if jFalsy data then JVal.obj [] else data } := by
  simp [requestGeneric, h]

/-- The `path` a request description carries (`""` when the call failed
before any request). -/
def callPathOf : Except String HttpCall → String
  | .ok call => call.path
  | .error _ => ""

/-- The JSON `body` a request description carries. -/
def callBodyOf : Except String HttpCall → JVal
  | .ok call => call.body
  | .error _ => .null

/-- The HTTP method a request description carries. -/
def callMethodOf : Except String HttpCall → String
  | .ok call => call.methodName
  | .error _ => ""

/-!
## Generator lemmas
-/

theorem genLoop_succ (normalize : Dict → Dict → Except String Dict) (rt : String)
    (fetch : Nat → Dict) (lim : Option Int) (fuel page : Nat) (num : Int) :
    genLoop normalize rt fetch lim (fuel + 1) page num =
      match envTotalPages (fetch page) with
      | .error e => .err e
      | .ok tp =>
        match envRecords (fetch page) rt with
        | .error e => .err e
        | .ok objs =>
          match processObjs normalize (fetch page) lim objs num with
          | .error e => .err e
          | .ok (ys, num', stopped) =>
            if stopped then .ok ys [page]
            else if ((page : Int) + 1) > tp then .ok ys [page]
            else
              match genLoop normalize rt fetch lim fuel (page + 1) num' with
              | .fuelOut => .fuelOut
              | .err e => .err e
              | .ok ys' pages => .ok (ys ++ ys') (page :: pages) := rfl

theorem processObjs_id_none (normalize : Dict → Dict → Except String Dict)
    (hn : ∀ o c, normalize o c = .ok o) :
    ∀ (container : Dict) (objs : List Dict) (num : Int),
      processObjs normalize container none objs num =
        .ok (objs, num + (objs.length : Int), false) := by
  intro container objs
  induction objs with
  | nil => intro num; simp [processObjs]
  | cons o rest ih =>
    intro num
    simp only [processObjs, hn, pyLimitHit, Bool.false_eq_true, if_false, ih]
    simp only [List.length_cons]
    push_cast
    ring_nf

theorem genLoop_const_tp (normalize : Dict → Dict → Except String Dict)
    (hn : ∀ o c, normalize o c = .ok o) (rt : String) (fetch : Nat → Dict)
    (t : Nat) (rs : Nat → List Dict)
    (h : ∀ p, 1 ≤ p → p ≤ t → envTotalPages (fetch p) = .ok (t : Int)
        ∧ envRecords (fetch p) rt = .ok (rs p)) :
    ∀ (fuel p : Nat) (num : Int), 1 ≤ p → p ≤ t → t - p < fuel →
      genLoop normalize rt fetch none fuel p num =
        .ok (((List.range' p (t - p + 1)).map rs).flatten)
          (List.range' p (t - p + 1)) := by
  intro fuel
  induction fuel with
  | zero => intro p num _ _ h3; omega
  | succ f ih =>
    intro p num hp1 hp2 hf
    rw [genLoop_succ]
    obtain ⟨htp, hrec⟩ := h p hp1 hp2
    simp only [htp, hrec, processObjs_id_none normalize hn, Bool.false_eq_true,
      if_false]
    by_cases hpt : p = t
    · subst hpt
      rw [if_pos (show ((p : Int) + 1) > (p : Int) by omega)]
      simp [List.range'_one, Nat.sub_self]
    · have hlt : p < t := lt_of_le_of_ne hp2 hpt
      rw [if_neg (show ¬(((p : Int) + 1) > (t : Int)) by omega)]
      rw [ih (p + 1) (num + ((rs p).length : Int)) (by omega) (by omega) (by omega)]
      rw [show t - (p + 1) + 1 = t - p from by omega]
      rw [show List.range' p (t - p + 1) = p :: List.range' (p + 1) (t - p) from
        List.range'_succ p (t - p) 1]
      simp

/-!
## Normalization lemmas
-/

theorem resolveField_preserve (obj : Dict) (idKey : String) (coll : JVal)
    (tgtKey : String) (obj' : Dict) (k : String)
    (h : resolveField obj idKey coll tgtKey = .ok obj') (hk : k ≠ tgtKey) :
    dGet obj' k = dGet obj k := by
  unfold resolveField at h
  split at h
  · cases hf : findObjById coll (dGetD obj idKey) with
    | error e => rw [hf] at h; exact Except.noConfusion h
    | ok o =>
      rw [hf] at h
      injection h with h
      subst h
      exact dGet_dSet_ne _ _ _ _ hk
  · injection h with h
    subst h
    rfl

theorem resolveField_sets (obj : Dict) (idKey : String) (coll : JVal)
    (tgtKey : String) (obj' : Dict) (o : JVal)
    (h : resolveField obj idKey coll tgtKey = .ok obj')
    (hhas : dHas obj idKey = true)
    (hf : findObjById coll (dGetD obj idKey) = .ok o) :
    dGet obj' tgtKey = some o := by
  unfold resolveField at h
  simp only [hhas, if_true] at h
  rw [hf] at h
  injection h with h
  subst h
  exact dGet_dSet_self _ _ _

theorem findInList_no_match (us : List JVal) (v : JVal)
    (h : ∀ u ∈ us, ∀ kvs, u = JVal.obj kvs → dGet kvs "id" ≠ some v) :
    findInList us v = .ok .null ∨ ∃ e, findInList us v = .error e := by
  induction us with
  | nil => exact Or.inl rfl
  | cons u rest ih =>
    cases u with
    | obj kvs =>
      cases hg : dGet kvs "id" with
      | none =>
        refine Or.inr ⟨"KeyError", ?_⟩
        unfold findInList
        simp only [jIndex, hg]
      | some oid =>
        have hne : oid ≠ v := by
          intro hh
          exact h _ (List.mem_cons_self _ _) kvs rfl (by rw [hg, hh])
        have hb : JVal.beq oid v = false := JVal.beq_false hne
        have hrest := ih (fun u hu kvs hkv => h u (List.mem_cons_of_mem _ hu) kvs hkv)
        unfold findInList
        simp only [jIndex, hg, hb, Bool.false_eq_true, if_false]
        exact hrest
    | null => exact Or.inr ⟨"TypeError", rfl⟩
    | bool b => exact Or.inr ⟨"TypeError", rfl⟩
    | int n => exact Or.inr ⟨"TypeError", rfl⟩
    | str s => exact Or.inr ⟨"TypeError", rfl⟩
    | arr xs => exact Or.inr ⟨"TypeError", rfl⟩

theorem Contacts.normalize_inv (obj container obj' : Dict)
    (h : Contacts.normalize obj container = .ok obj') :
    ∃ obj1 obj2,
      resolveField obj "owner_id" (getColl container "users") "owner" = .ok obj1
      ∧ resolveField obj1 "contact_status_id" (getColl container "contact_status")
          "contact_status" = .ok obj2
      ∧ ∀ k, k ≠ "appointments" → dGet obj' k = dGet obj2 k := by
  unfold Contacts.normalize at h
  cases h1 : resolveField obj "owner_id" (getColl container "users") "owner" with
  | error e => simp only [h1] at h; exact Except.noConfusion h
  | ok obj1 =>
    simp only [h1] at h
    cases h2 : resolveField obj1 "contact_status_id"
        (getColl container "contact_status") "contact_status" with
    | error e => simp only [h2] at h; exact Except.noConfusion h
    | ok obj2 =>
      simp only [h2] at h
      refine ⟨obj1, obj2, rfl, h2, ?_⟩
      cases hap : dHas obj2 "appointment_ids" with
      | true =>
        simp only [hap, if_true] at h
        cases hl : pyIterList (dGetD obj2 "appointment_ids") with
        | error e => simp only [hl] at h; exact Except.noConfusion h
        | ok aids =>
          simp only [hl] at h
          cases hr : resolveAppointments (getColl container "appointments")
              (getColl container "outcomes") aids with
          | error e => simp only [hr] at h; exact Except.noConfusion h
          | ok res =>
            simp only [hr] at h
            injection h with h
            subst h
            intro k hk
            exact dGet_dSet_ne _ _ _ _ hk
      | false =>
        simp only [hap, Bool.false_eq_true, if_false] at h
        injection h with h
        subst h
        intro k _
        rfl

/-!
## The claims
-/

/-- **C2** (code bug).  The claim — following the spec's invariant that the
per-resource normalization step never raises when a referenced sibling
collection or id is absent — fails on the code at exactly the two inputs it
names: a `Contacts` record whose `appointment_ids` references an appointment
absent from the envelope's `appointments` collection makes
`Contacts._normalize` subscript the `None` returned by `_find_obj_by_id`
(`TypeError`), and a `Leads` record with a `lead_stage_id` while the envelope
has no `lead_stages` collection makes `Leads._normalize` read the unbound
local `lead_stages` (`NameError`; the source's initializer names the dead
variable `lead_stage`). -/
theorem C2_normalize_raises :
    Leads.normalize [("lead_stage_id", .int 1)] [] = .error "NameError"
    ∧ Contacts.normalize [("appointment_ids", .arr [.int 1])]
        [("appointments", .arr [])] = .error "TypeError" :=
  ⟨rfl, rfl⟩

/-- **C4** (counterexample).  The claim says every resource kind's
`bulk_delete` posts to `{resource}/bulk_destroy` where `{resource}` is the
kind's plural endpoint segment.  The accounts kind refutes it: its endpoint
segment is `sales_accounts` (used by every other operation), yet its
overridden `bulk_delete` posts to the literal `/accounts/bulk_destroy`. -/
theorem C4_counterexample :
    (Accounts.client "d" "k").resource_type = "sales_accounts"
    ∧ callPathOf (Accounts.bulkDelete (Accounts.client "d" "k") [.int 5] false)
        = "/accounts/bulk_destroy"
    ∧ "/accounts/bulk_destroy"
        ≠ "/" ++ (Accounts.client "d" "k").resource_type ++ "/bulk_destroy" := by
  refine ⟨rfl, rfl, ?_⟩
  decide

/-- **C4** (amended).  `bulk_delete(ids)` posts `{"selected_ids": ids}` to
`/{self.resource_type}/bulk_destroy` for every client that uses the base
method; the accounts kind's override posts instead to the literal path
`/accounts/bulk_destroy` (not its `sales_accounts` endpoint segment) and
additionally includes the `delete_associated_contacts_deals` flag in the
body. -/
theorem C4_amended_bulk_destroy :
    (∀ (c : Client) (ids : List JVal) (call : HttpCall),
        bulkDelete c ids = .ok call →
          call.methodName = "post"
          ∧ call.path = "/" ++ c.resource_type ++ "/bulk_destroy"
          ∧ call.body = .obj [("selected_ids", .arr ids)])
    ∧ (∀ (c : Client) (ids : List JVal) (flag : Bool) (call : HttpCall),
        Accounts.bulkDelete c ids flag = .ok call →
          call.methodName = "post"
          ∧ call.path = "/accounts/bulk_destroy"
          ∧ call.body = .obj [("selected_ids", .arr ids),
              ("delete_associated_contacts_deals", .bool flag)]) := by
  constructor
  · intro c ids call h
    rw [bulkDelete, requestGeneric_eq _ _ _ _ _ (sws2 _ _)] at h
    injection h with h
    subst h
    exact ⟨rfl, rfl, rfl⟩
  · intro c ids flag call h
    rw [Accounts.bulkDelete, requestGeneric_eq c "post" "/accounts/bulk_destroy" []
      (.obj [("selected_ids", .arr ids),
             ("delete_associated_contacts_deals", .bool flag)]) rfl] at h
    injection h with h
    subst h
    exact ⟨rfl, rfl, rfl⟩

/-- Witness for C4's amended theorem at `Deals.bulk_delete([1])` and
`Accounts.bulk_delete([1], True)`. -/
theorem C4_amended_witness :
    (demoBulkCall.methodName = "post"
      ∧ demoBulkCall.path = "/" ++ (Deals.client "d" "k").resource_type
          ++ "/bulk_destroy"
      ∧ demoBulkCall.body = .obj [("selected_ids", .arr [.int 1])])
    ∧ (callPathOf (Accounts.bulkDelete (Accounts.client "d" "k") [.int 1] true)
        = "/accounts/bulk_destroy") :=
  ⟨C4_amended_bulk_destroy.1 (Deals.client "d" "k") [.int 1] demoBulkCall rfl,
   rfl⟩

/-- **C5** (confirmed).  `forget` on a `Tasks`, `Notes` or `SalesActivities`
client executes `return NotImplementedError`: the `NotImplementedError`
class is handed back to the caller (as a value — the override returns the
class rather than raising it) and no HTTP request is issued. -/
theorem C5_forget_not_implemented :
    ∀ (c : Client) (id : String),
      Tasks.forget c id = .notImplementedErrorValue
      ∧ (Tasks.forget c id).httpCalls = []
      ∧ Notes.forget c id = .notImplementedErrorValue
      ∧ (Notes.forget c id).httpCalls = []
      ∧ SalesActivities.forget c id = .notImplementedErrorValue
      ∧ (SalesActivities.forget c id).httpCalls = [] :=
  fun _ _ => ⟨rfl, rfl, rfl, rfl, rfl, rfl⟩

/-- **C8** (confirmed).  `create(data)` and `update(id, data)` send exactly
`{self.resource_type_singular: data}` as the request body — one level of
wrapping, and the value stored under the singular key is the caller's `data`
itself (the call builds a fresh one-entry dict around it and never writes
into `data`). -/
theorem C8_body_wrapping (c : Client) (data : JVal) (id : String) :
    callBodyOf (create c data) = .obj [(c.resource_type_singular, data)]
    ∧ callBodyOf (update c id data) = .obj [(c.resource_type_singular, data)]
    ∧ dGet [(c.resource_type_singular, data)] c.resource_type_singular
        = some data := by
  refine ⟨?_, ?_, ?_⟩
  · rw [create, requestGeneric_eq _ _ _ _ _ (sws1 _)]
    rfl
  · rw [update, requestGeneric_eq _ _ _ _ _ (sws3 _ _ _)]
    rfl
  · rw [dGet_cons]
    simp

/-- **C6** (confirmed).  The outgoing request parameters are the client's
default parameter mapping overridden by the per-call entries, where a
per-call entry whose value is `None` is ignored (the default for that key,
if any, survives), boolean values become the strings `"true"`/`"false"`,
and every other value passes through unchanged; `_request_generic` sends
exactly this merge. -/
theorem C6_params_merge :
    (∀ (defaults params : Dict), (params.map Prod.fst).Nodup → ∀ k : String,
        dGet (mergeParams defaults params) k =
          match dGet params k with
          | some v => if v.isNone then dGet defaults k else some (paramVal v)
          | none => dGet defaults k)
    ∧ (∀ (c : Client) (m p : String) (params : Dict) (data : JVal)
          (call : HttpCall),
        requestGeneric c m p params data = .ok call →
        call.params = mergeParams c.default_params params)
    ∧ (∀ b : Bool, paramVal (.bool b) = .str (if b then "true" else "false"))
    ∧ (∀ v : JVal, (∀ b, v ≠ .bool b) → paramVal v = v) := by
  refine ⟨mergeParams_spec, ?_, fun _ => rfl, ?_⟩
  · intro c m p params data call h
    unfold requestGeneric at h
    split at h
    · exact absurd h (by simp)
    · injection h with h
      subst h
      rfl
  · intro v hv
    cases v with
    | bool b => exact absurd rfl (hv b)
    | null => rfl
    | int n => rfl
    | str s => rfl
    | arr xs => rfl
    | obj kvs => rfl

/-- Witness for C6 on concrete parameters: the `None`-valued per-call `sort`
leaves the default in place, the boolean `archived` arrives as `"true"`, and
a concrete `GET /tasks` request carries exactly the merge. -/
theorem C6_params_merge_witness :
    dGet (mergeParams demoDefaults demoParams) "sort" = some (.str "updated_at")
    ∧ dGet (mergeParams demoDefaults demoParams) "archived" = some (.str "true")
    ∧ demoCall.params
        = mergeParams (Tasks.client "d" "k").default_params demoParams :=
  ⟨(C6_params_merge.1 demoDefaults demoParams (by decide) "sort").trans rfl,
   (C6_params_merge.1 demoDefaults demoParams (by decide) "archived").trans rfl,
   C6_params_merge.2.1 (Tasks.client "d" "k") "get" "/tasks" demoParams .null
     demoCall rfl⟩

/-- **C9** (confirmed).  No public operation writes into the client state:
after any sequence of operations the client equals — field by field — what
`__init__` produced (`_request_generic` merges per-call parameters into a
deep copy of `default_params`, never into the stored dict). -/
theorem C9_state_immutable (normalize : Dict → Dict → Except String Dict)
    (server : Nat → Dict) (c : Client) (ops : List Op) :
    runOps normalize server c ops = c
    ∧ (runOps normalize server c ops).default_params = c.default_params
    ∧ (runOps normalize server c ops).domain = c.domain
    ∧ (runOps normalize server c ops).api_key = c.api_key
    ∧ (runOps normalize server c ops).resource_type = c.resource_type
    ∧ (runOps normalize server c ops).resource_type_singular
        = c.resource_type_singular := by
  have hstep : ∀ (st : Client) (op : Op), (runOp normalize server st op).1 = st := by
    intro st op
    cases op <;> rfl
  have hrun : ∀ (l : List Op) (st : Client), runOps normalize server st l = st := by
    intro l
    induction l with
    | nil => intro st; rfl
    | cons o rest ih =>
      intro st
      show (o :: rest).foldl _ st = st
      rw [List.foldl_cons, hstep]
      exact ih st
  refine ⟨hrun ops c, ?_, ?_, ?_, ?_, ?_⟩ <;> rw [hrun ops c]

/-- **C10** (confirmed).  A falsy `limit` is no limit: the stop test is
`if limit and num > limit:`, so `limit=0` never triggers it and the run with
`limit=0` is identical to the unlimited run — on the two-page demo view it
yields all four records, not zero. -/
theorem C10_limit_zero :
    (∀ (normalize : Dict → Dict → Except String Dict) (rt : String)
        (fetch : Nat → Dict) (fuel page : Nat) (num : Int),
        genLoop normalize rt fetch (some 0) fuel page num =
          genLoop normalize rt fetch none fuel page num)
    ∧ getAll noopNormalize "tasks" (demoEnv 2) (some 0) 5 =
        .ok [[("id", .int 1)], [("id", .int 2)], [("id", .int 3)],
             [("id", .int 4)]] [1, 2] := by
  have hpl : ∀ num : Int, pyLimitHit (some 0) num = pyLimitHit none num := by
    intro num
    simp [pyLimitHit]
  have hproc : ∀ (normalize : Dict → Dict → Except String Dict)
      (container : Dict) (objs : List Dict) (num : Int),
      processObjs normalize container (some 0) objs num =
        processObjs normalize container none objs num := by
    intro normalize container objs
    induction objs with
    | nil => intro num; rfl
    | cons o rest ih =>
      intro num
      unfold processObjs
      cases normalize o container with
      | error e => rfl
      | ok o' => rw [hpl, ih]
  refine ⟨?_, rfl⟩
  intro normalize rt fetch fuel
  induction fuel with
  | zero => intro page num; rfl
  | succ f ih =>
    intro page num
    unfold genLoop
    simp only [hproc, ih]

/-- **C7** (confirmed).  Resolving a contact's `owner_id = 7` against an
envelope whose `users` collection is `[{"id": 7, "name": "A"}]` stores that
user object under `obj["owner"]`; when `owner_id` matches no user of the
envelope's `users` collection the stored value is `None`; and a successful
`Contacts._normalize` changes no key other than the added resolved fields
`owner`, `contact_status` and `appointments`. -/
theorem C7_owner_resolution :
    (∀ (obj container obj' : Dict),
        dGet container "users" = some (.arr [userA]) →
        dGet obj "owner_id" = some (.int 7) →
        Contacts.normalize obj container = .ok obj' →
        dGet obj' "owner" = some userA)
    ∧ (∀ (obj container obj' : Dict) (us : List JVal) (v : JVal),
        dGet container "users" = some (.arr us) →
        dGet obj "owner_id" = some v →
        (∀ u ∈ us, ∀ kvs, u = JVal.obj kvs → dGet kvs "id" ≠ some v) →
        Contacts.normalize obj container = .ok obj' →
        dGet obj' "owner" = some .null)
    ∧ (∀ (obj container obj' : Dict) (k : String),
        Contacts.normalize obj container = .ok obj' →
        k ≠ "owner" → k ≠ "contact_status" → k ≠ "appointments" →
        dGet obj' k = dGet obj k) := by
  refine ⟨?_, ?_, ?_⟩
  · intro obj container obj' hu ho h
    obtain ⟨obj1, obj2, h1, h2, hpres⟩ := Contacts.normalize_inv obj container obj' h
    have hcoll : getColl container "users" = .arr [userA] := by
      simp [getColl, hu]
    rw [hcoll] at h1
    have hgetd : dGetD obj "owner_id" = .int 7 := by simp [dGetD, ho]
    have hhas : dHas obj "owner_id" = true := by simp [dHas, ho]
    have hfo : findObjById (.arr [userA]) (dGetD obj "owner_id") = .ok userA := by
      rw [hgetd]
      rfl
    have hset := resolveField_sets _ _ _ _ _ _ h1 hhas hfo
    have hp2 : dGet obj2 "owner" = dGet obj1 "owner" :=
      resolveField_preserve _ _ _ _ _ _ h2 (by decide)
    rw [hpres "owner" (by decide), hp2, hset]
  · intro obj container obj' us v hu ho hnm h
    obtain ⟨obj1, obj2, h1, h2, hpres⟩ := Contacts.normalize_inv obj container obj' h
    have hcoll : getColl container "users" = .arr us := by
      simp [getColl, hu]
    rw [hcoll] at h1
    have hgetd : dGetD obj "owner_id" = v := by simp [dGetD, ho]
    have hhas : dHas obj "owner_id" = true := by simp [dHas, ho]
    have hfo : findObjById (.arr us) (dGetD obj "owner_id") = .ok .null := by
      rw [hgetd]
      show findInList us v = .ok .null
      rcases findInList_no_match us v hnm with hok | ⟨e, herr⟩
      · exact hok
      · exfalso
        unfold resolveField at h1
        simp only [hhas, if_true] at h1
        rw [hgetd] at h1
        rw [show findObjById (.arr us) v = findInList us v from rfl, herr] at h1
        exact Except.noConfusion h1
    have hset := resolveField_sets _ _ _ _ _ _ h1 hhas hfo
    have hp2 : dGet obj2 "owner" = dGet obj1 "owner" :=
      resolveField_preserve _ _ _ _ _ _ h2 (by decide)
    rw [hpres "owner" (by decide), hp2, hset]
  · intro obj container obj' k h hk1 hk2 hk3
    obtain ⟨obj1, obj2, h1, h2, hpres⟩ := Contacts.normalize_inv obj container obj' h
    rw [hpres k hk3, resolveField_preserve _ _ _ _ _ _ h2 hk2,
      resolveField_preserve _ _ _ _ _ _ h1 hk1]

/-- Witness for C7 on the specification's concrete example: normalizing
`{"owner_id": 7, "x": 5}` against `{"users": [{"id": 7, "name": "A"}]}`
yields `owner = {"id": 7, "name": "A"}` and leaves `x` unchanged, and
normalizing `{"owner_id": 9}` against the same envelope yields
`owner = None`. -/
theorem C7_owner_resolution_witness :
    dGet contactA' "owner" = some userA
    ∧ dGet contactB' "owner" = some JVal.null
    ∧ dGet contactA' "x" = dGet contactA "x" := by
  refine ⟨?_, ?_, ?_⟩
  · exact C7_owner_resolution.1 contactA containerA contactA' rfl rfl rfl
  · refine C7_owner_resolution.2.1 contactB containerA contactB' [userA]
      (.int 9) rfl rfl ?_ rfl
    intro u hu kvs hkv hcon
    rw [List.mem_singleton] at hu
    subst hu
    injection hkv with hkv
    subst hkv
    have h7 : some (JVal.int 7) = some (JVal.int 9) := hcon
    injection h7 with h7
    injection h7 with h7
    exact absurd h7 (by decide)
  · exact C7_owner_resolution.2.2 contactA containerA contactA' "x" rfl
      (by decide) (by decide) (by decide)

/-- **C1** (confirmed).  Pagination: for every view whose pages 1–3 all
report `total_pages = 3` (and an identity-acting normalization step, as with
the no-op resource kinds), `get_all` returns the concatenation of the three
pages' record arrays in order, fetching exactly pages 1, 2, 3; and with
`limit = 5` against pages of 3 records each, the generator yields exactly the
first 5 records and fetches only pages 1 and 2. -/
theorem C1_pagination :
    (∀ (normalize : Dict → Dict → Except String Dict) (rt : String)
        (fetch : Nat → Dict) (r1 r2 r3 : List Dict) (k : Nat),
        (∀ o c, normalize o c = .ok o) →
        envTotalPages (fetch 1) = .ok 3 → envRecords (fetch 1) rt = .ok r1 →
        envTotalPages (fetch 2) = .ok 3 → envRecords (fetch 2) rt = .ok r2 →
        envTotalPages (fetch 3) = .ok 3 → envRecords (fetch 3) rt = .ok r3 →
        getAll normalize rt fetch none (k + 3) =
          .ok (r1 ++ r2 ++ r3) [1, 2, 3])
    ∧ (∀ (normalize : Dict → Dict → Except String Dict) (rt : String)
        (fetch : Nat → Dict) (a1 a2 a3 b1 b2 b3 : Dict) (k : Nat),
        (∀ o c, normalize o c = .ok o) →
        envTotalPages (fetch 1) = .ok 3 →
        envRecords (fetch 1) rt = .ok [a1, a2, a3] →
        envTotalPages (fetch 2) = .ok 3 →
        envRecords (fetch 2) rt = .ok [b1, b2, b3] →
        getAll normalize rt fetch (some 5) (k + 2) =
          .ok [a1, a2, a3, b1, b2] [1, 2]) := by
  constructor
  · intro normalize rt fetch r1 r2 r3 k hn h1tp h1r h2tp h2r h3tp h3r
    have hp := processObjs_id_none normalize hn
    show genLoop normalize rt fetch none (k + 3) 1 0 = _
    rw [show k + 3 = (k + 2) + 1 from rfl, genLoop_succ]
    have hc1 : ¬((((1 : Nat) : Int) + 1) > 3) := by norm_num
    simp only [h1tp, h1r, hp, Bool.false_eq_true, if_false, if_neg hc1]
    rw [show (1 + 1 : Nat) = 2 from rfl, show k + 2 = (k + 1) + 1 from rfl,
      genLoop_succ]
    have hc2 : ¬((((2 : Nat) : Int) + 1) > 3) := by norm_num
    simp only [h2tp, h2r, hp, Bool.false_eq_true, if_false, if_neg hc2]
    rw [show (2 + 1 : Nat) = 3 from rfl, genLoop_succ]
    have hc3 : (((3 : Nat) : Int) + 1) > 3 := by norm_num
    simp only [h3tp, h3r, hp, Bool.false_eq_true, if_false, if_pos hc3]
    simp [List.append_assoc]
  · intro normalize rt fetch a1 a2 a3 b1 b2 b3 k hn h1tp h1r h2tp h2r
    have hpA : processObjs normalize (fetch 1) (some 5) [a1, a2, a3] 0 =
        .ok ([a1, a2, a3], 0 + 1 + 1 + 1, false) := by
      simp only [processObjs, hn,
        show pyLimitHit (some 5) ((0 : Int) + 1) = false from rfl,
        show pyLimitHit (some 5) ((0 : Int) + 1 + 1) = false from rfl,
        show pyLimitHit (some 5) ((0 : Int) + 1 + 1 + 1) = false from rfl,
        Bool.false_eq_true, if_false]
    have hpB : processObjs normalize (fetch 2) (some 5) [b1, b2, b3]
        (0 + 1 + 1 + 1) = .ok ([b1, b2], 0 + 1 + 1 + 1 + 1 + 1 + 1, true) := by
      simp only [processObjs, hn,
        show pyLimitHit (some 5) ((0 : Int) + 1 + 1 + 1 + 1) = false from rfl,
        show pyLimitHit (some 5) ((0 : Int) + 1 + 1 + 1 + 1 + 1) = false from rfl,
        show pyLimitHit (some 5) ((0 : Int) + 1 + 1 + 1 + 1 + 1 + 1) = true from rfl,
        Bool.false_eq_true, if_false, if_true]
    show genLoop normalize rt fetch (some 5) (k + 2) 1 0 = _
    rw [show k + 2 = (k + 1) + 1 from rfl, genLoop_succ]
    have hc1 : ¬((((1 : Nat) : Int) + 1) > 3) := by norm_num
    simp only [h1tp, h1r, hpA, Bool.false_eq_true, if_false, if_neg hc1]
    rw [show (1 + 1 : Nat) = 2 from rfl, genLoop_succ]
    simp only [h2tp, h2r, hpB, eq_self_iff_true, if_true]
    simp

/-- Witness for C1 on a concrete 3-page, 3-records-per-page `tasks` view:
the unlimited run returns all nine records over fetches `[1, 2, 3]`, and the
`limit = 5` run yields records 1–5 over fetches `[1, 2]`. -/
theorem C1_pagination_witness :
    getAll noopNormalize "tasks" threePageFetch none 3 =
      .ok (threePageRecords 1 ++ threePageRecords 2 ++ threePageRecords 3)
        [1, 2, 3]
    ∧ getAll noopNormalize "tasks" threePageFetch (some 5) 2 =
        .ok [[("id", .int 1)], [("id", .int 2)], [("id", .int 3)],
             [("id", .int 4)], [("id", .int 5)]] [1, 2] := by
  constructor
  · exact C1_pagination.1 noopNormalize "tasks" threePageFetch
      (threePageRecords 1) (threePageRecords 2) (threePageRecords 3) 0
      (fun _ _ => rfl) rfl rfl rfl rfl rfl rfl
  · exact C1_pagination.2 noopNormalize "tasks" threePageFetch
      [("id", .int 1)] [("id", .int 2)] [("id", .int 3)]
      [("id", .int 4)] [("id", .int 5)] [("id", .int 6)] 0
      (fun _ _ => rfl) rfl rfl rfl rfl

/-- **C3** (counterexample).  The claim says that after fetching page `p`
declaring `total_pages = t`, another page is fetched iff `p` does not exceed
`t`.  A one-page view refutes it: page 1 declares `total_pages = 1` and
`1 ≤ 1`, yet the generator performs exactly one fetch — the loop advances
`page` first and breaks as soon as `page + 1 > total_pages`. -/
theorem C3_counterexample :
    getAll noopNormalize "tasks" onePageFetch none 5 =
      .ok [[("id", JVal.int 1)]] [1]
    ∧ (1 : Nat) ≤ 1 :=
  ⟨rfl, le_refl 1⟩

/-- **C3** (amended).  The loop advances to the next page and repeats until
the incremented page number exceeds the just-fetched envelope's
`total_pages`: against a view whose every page declares `total_pages = t`
(`t ≥ 1`), the fetched pages are exactly `1, …, t`, and after fetching page
`p` the next page `p + 1` is fetched iff `p < t` (equivalently `p + 1 ≤ t`)
— not iff `p ≤ t` as the claim stated. -/
theorem C3_amended_continuation
    (normalize : Dict → Dict → Except String Dict) (rt : String)
    (fetch : Nat → Dict) (t : Nat) (rs : Nat → List Dict) (fuel : Nat)
    (hn : ∀ o c, normalize o c = .ok o)
    (ht : 1 ≤ t)
    (h : ∀ p, 1 ≤ p → p ≤ t → envTotalPages (fetch p) = .ok (t : Int)
        ∧ envRecords (fetch p) rt = .ok (rs p))
    (hfuel : t ≤ fuel) :
    getAll normalize rt fetch none fuel =
      .ok (((List.range' 1 t).map rs).flatten) (List.range' 1 t)
    ∧ (∀ p : Nat, 1 ≤ p → p ≤ t → ((p + 1) ∈ List.range' 1 t ↔ p < t)) := by
  constructor
  · show genLoop normalize rt fetch none fuel 1 0 = _
    have hc := genLoop_const_tp normalize hn rt fetch t rs h fuel 1 0
      (le_refl 1) ht (by omega)
    rwa [show t - 1 + 1 = t from by omega] at hc
  · intro p hp1 hp2
    simp only [List.mem_range'_1]
    omega

/-- Witness for C3's amended theorem on the concrete 3-page view: the fetched
pages are `[1, 2, 3]` and page 2 is fetched after page 1 since `1 < 3`. -/
theorem C3_amended_witness :
    getAll noopNormalize "tasks" threePageFetch none 5 =
      .ok (((List.range' 1 3).map threePageRecords).flatten) (List.range' 1 3)
    ∧ ((1 + 1) ∈ List.range' 1 3 ↔ 1 < 3) := by
  have h := C3_amended_continuation noopNormalize "tasks" threePageFetch 3
    threePageRecords 5 (fun _ _ => rfl) (by norm_num)
    (fun p _ _ => ⟨rfl, rfl⟩) (by norm_num)
  exact ⟨h.1, h.2 1 (by norm_num) (by norm_num)⟩
